import Mathlib

/-!
Verification of the log-scanning script `scanLogs.py`.

The script reads a MongoDB log file line by line, keeps every line containing
the marker substring COLLSCAN, extracts fields from each such line with a
fixed set of regular-expression searches, prints summary statistics, and
exports one text block per record.

The embedding below works on `List Char`.  Each of the script's
`re.search(pattern, line)` calls is modelled by a dedicated scanner that
reproduces Python's leftmost-match-with-backtracking semantics for that
concrete pattern: `scanSuffixes f` tries the anchored matcher `f` at every
start position from the left and returns the first success, exactly as
`re.search` does.
-/

namespace ScanLogs

/-- Python's `\s` on ASCII text: space, tab, newline, carriage return,
vertical tab, form feed.  (The source lines are ASCII; Unicode whitespace
is not modelled.) -/
def isSpaceC (c : Char) : Bool :=
  c = ' ' || c = '\t' || c = '\n' || c = '\r' || c = '\x0b' || c = '\x0c'

/-- Python's `\d` on ASCII text: a decimal digit. -/
def isDigitC (c : Char) : Bool :=
  '0' ≤ c && c ≤ '9'

/-- Value of a digit string, as computed by Python's `int()` on the captured
group (most-significant digit first). -/
def digitsToNat (ds : List Char) : Nat :=
  ds.foldl (fun n c => 10 * n + (c.toNat - 48)) 0

/-- Substring test: models Python's `'COLLSCAN' in line`. -/
def containsSub (pat : List Char) : List Char → Bool
  | [] => pat.isPrefixOf []
  | c :: rest => pat.isPrefixOf (c :: rest) || containsSub pat rest

/-- Leftmost-match driver: try the anchored matcher `f` at every suffix,
left to right (including the empty suffix), returning the first success.
This is exactly the start-position scan performed by `re.search`. -/
def scanSuffixes (f : List Char → Option α) : List Char → Option α
  | [] => f []
  | c :: rest =>
    match f (c :: rest) with
    | some v => some v
    | none => scanSuffixes f rest

/-- Consume exactly `n` decimal digits (the regex `\d{n}`), returning them
and the rest of the input. -/
def exactDigits : Nat → List Char → Option (List Char × List Char)
  | 0, s => some ([], s)
  | _ + 1, [] => none
  | n + 1, c :: s =>
    if isDigitC c then
      match exactDigits n s with
      | some (d, r) => some (c :: d, r)
      | none => none
    else none

/-- Consume one expected character. -/
def expectChar (c : Char) : List Char → Option (List Char)
  | [] => none
  | d :: s => if d = c then some s else none

/-- Anchored matcher for the timestamp pattern
`(\d{4}-\d{2}-\d{2}T\d{2}:\d{2}:\d{2}\.\d+[+-]\d{4})` (source line 63).
The greedy `\d+` cannot backtrack usefully (a shorter digit run is followed
by a digit, never by `+` or `-`), so taking the maximal run is faithful. -/
def tsTail (frac : List Char) (s : List Char) : Option (List Char) :=
  if frac.isEmpty then none
  else
    match s with
    | [] => none
    | sign :: s13 =>
      if sign = '+' || sign = '-' then
        (exactDigits 4 s13).map fun g => frac ++ sign :: g.1
      else none

def matchTs (s : List Char) : Option (List Char) :=
  (exactDigits 4 s).bind fun a =>
  (expectChar '-' a.2).bind fun s2 =>
  (exactDigits 2 s2).bind fun b =>
  (expectChar '-' b.2).bind fun s4 =>
  (exactDigits 2 s4).bind fun c =>
  (expectChar 'T' c.2).bind fun s6 =>
  (exactDigits 2 s6).bind fun d =>
  (expectChar ':' d.2).bind fun s8 =>
  (exactDigits 2 s8).bind fun e =>
  (expectChar ':' e.2).bind fun s10 =>
  (exactDigits 2 s10).bind fun f =>
  (expectChar '.' f.2).bind fun s12 =>
  (tsTail (s12.takeWhile isDigitC) (s12.dropWhile isDigitC)).map fun tl =>
    a.1 ++ '-' :: b.1 ++ '-' :: c.1 ++ 'T' :: d.1 ++ ':' :: e.1 ++ ':' :: f.1
      ++ '.' :: tl

/-- Literal `ns:` of the namespace pattern. -/
def nsLit : List Char := "ns:".data

/-- The captured token of `ns:\s*([^\s]+\.[^\s]+)` is the whole maximal
non-whitespace token after the literal and optional whitespace, provided the
token contains a `.` that has at least one non-whitespace character on each
side inside the token (the greedy `[^\s]+\.[^\s]+` with backtracking matches
the full token exactly under that condition). -/
def hasInteriorDot (tok : List Char) : Bool :=
  ((tok.drop 1).dropLast).contains '.'

/-- Anchored matcher for `ns:\s*([^\s]+\.[^\s]+)` (source line 68). -/
def matchNs (s : List Char) : Option (List Char) :=
  if nsLit.isPrefixOf s then
    let r := (s.drop nsLit.length).dropWhile isSpaceC
    let tok := r.takeWhile (fun c => !(isSpaceC c))
    if hasInteriorDot tok then some tok else none
  else none

/-- Literal `collection:` of the fallback collection pattern. -/
def collLit : List Char := "collection:".data

/-- Anchored matcher for `collection:\s*"?([^"\s]+)"?` (source line 74).
The optional opening quote is consumed greedily; if the group would be empty
after it, the zero-width alternative also fails because `"` is excluded from
the group's character class, so the anchor fails. -/
def matchColl (s : List Char) : Option (List Char) :=
  if collLit.isPrefixOf s then
    let r := (s.drop collLit.length).dropWhile isSpaceC
    match r with
    | [] => none
    | c :: r2 =>
      if c = '\"' then
        let tok := r2.takeWhile (fun d => !(d = '\"' || isSpaceC d))
        if tok.isEmpty then none else some tok
      else
        let tok := (c :: r2).takeWhile (fun d => !(d = '\"' || isSpaceC d))
        if tok.isEmpty then none else some tok
  else none

/-- Literal `query:` of the query pattern. -/
def queryLit : List Char := "query:".data

/-- Anchored matcher for `query:\s*({[^}]+})` (source line 79): a brace,
a non-empty run of non-closing-brace characters, and the closing brace.
The group includes both braces. -/
def matchQuery (s : List Char) : Option (List Char) :=
  if queryLit.isPrefixOf s then
    let r := (s.drop queryLit.length).dropWhile isSpaceC
    match r with
    | [] => none
    | c :: r2 =>
      if c = '\x7b' then
        let body := r2.takeWhile (fun d => !(d = '\x7d'))
        if body.isEmpty then none
        else
          match r2.drop body.length with
          | '\x7d' :: _ => some ('\x7b' :: body ++ ['\x7d'])
          | _ => none
      else none
  else none

/-- Anchored matcher for `(\d+)ms` (source line 87): a maximal digit run
followed immediately by the literal `ms`.  Backtracking inside the run
cannot succeed (the run's interior characters are digits, never `m`). -/
def matchDuration (s : List Char) : Option Nat :=
  let ds := s.takeWhile isDigitC
  if ds.isEmpty then none
  else if ("ms".data).isPrefixOf (s.drop ds.length) then some (digitsToNat ds)
  else none

/-- Anchored matcher for `LIT\s*(\d+)` used for `docsExamined:` and
`keysExamined:` (source lines 92 and 97). -/
def matchNumAfter (lit : List Char) (s : List Char) : Option Nat :=
  if lit.isPrefixOf s then
    let r := (s.drop lit.length).dropWhile isSpaceC
    let ds := r.takeWhile isDigitC
    if ds.isEmpty then none else some (digitsToNat ds)
  else none

/-- Literal `planSummary:` of the plan pattern. -/
def planLit : List Char := "planSummary:".data

/-- Anchored matcher for `planSummary:\s*([^\s]+)` (source line 102). -/
def matchPlan (s : List Char) : Option (List Char) :=
  if planLit.isPrefixOf s then
    let r := (s.drop planLit.length).dropWhile isSpaceC
    let tok := r.takeWhile (fun c => !(isSpaceC c))
    if tok.isEmpty then none else some tok
  else none

/-- Python's `line.strip()`: drop ASCII whitespace from both ends. -/
def pyStrip (l : List Char) : List Char :=
  ((l.dropWhile isSpaceC).reverse.dropWhile isSpaceC).reverse

/-- One extracted record: the `query_info` dict built by
`parse_collscan_line` (source lines 49-59).  `Option` models Python `None`
for a field whose pattern did not match. -/
structure ScanRecord where
  line_number : Nat
  timestamp : Option String
  collection : Option String
  query : Option String
  duration_ms : Option Nat
  docs_examined : Option Nat
  keys_examined : Option Nat
  plan_summary : Option String
  raw_line : String
deriving DecidableEq

/-- Embedding of `parse_collscan_line` (source lines 45-106): the eight
independent `re.search` extractions, with the `collection:` pattern tried
only when the `ns:` pattern found nothing, and `raw_line = line.strip()`. -/
def parse_collscan_line (line : String) (line_number : Nat) : ScanRecord :=
  let cs := line.data
  let nsRes := scanSuffixes matchNs cs
  { line_number := line_number
  , timestamp := (scanSuffixes matchTs cs).map String.mk
  , collection :=
      match nsRes with
      | some t => some (String.mk t)
      | none => (scanSuffixes matchColl cs).map String.mk
  , query := (scanSuffixes matchQuery cs).map String.mk
  , duration_ms := scanSuffixes matchDuration cs
  , docs_examined := scanSuffixes (matchNumAfter ("docsExamined:".data)) cs
  , keys_examined := scanSuffixes (matchNumAfter ("keysExamined:".data)) cs
  , plan_summary := (scanSuffixes matchPlan cs).map String.mk
  , raw_line := String.mk (pyStrip line.data) }

/-- The marker test `'COLLSCAN' in line` (source line 29). -/
def containsMarker (l : String) : Bool :=
  containsSub ("COLLSCAN".data) l.data

/-- Embedding of the line loop of `parse_mongo_log` (source lines 20-35):
the 1-based line counter is incremented for every physical line, and every
line containing the marker yields exactly one record (`parse_collscan_line`
always returns a non-empty dict, so the `if query_info:` guard at source
line 32 is always true). -/
def parseLinesAux : Nat → List String → List ScanRecord
  | _, [] => []
  | n, l :: ls =>
    if containsMarker l then parse_collscan_line l n :: parseLinesAux (n + 1) ls
    else parseLinesAux (n + 1) ls

/-- Outcome of opening and reading the input file; the two error
constructors correspond to the `except FileNotFoundError` and
`except Exception` arms (source lines 37-42). -/
inductive FileRead where
  | ok (lines : List String)
  | notFound
  | ioErr (msg : String)
deriving DecidableEq

/-- Whether the file read failed. -/
def FileRead.isError : FileRead → Bool
  | .ok _ => false
  | .notFound => true
  | .ioErr _ => true

/-- The 70-character `=` banner used throughout the script. -/
def sep70 : String := String.mk (List.replicate 70 '=')

/-- The 70-character `-` separator used between export blocks. -/
def sepDash70 : String := String.mk (List.replicate 70 '-')

/-- The three banner lines printed at the top of `parse_mongo_log`
(source lines 16-18). -/
def analyzeBanner (path : String) : List String :=
  [sep70, "Analyzing MongoDB Log: " ++ path, sep70]

/-- Embedding of `parse_mongo_log` (source lines 12-42): returns the record
list together with the console lines it prints.  A caught exception is
reported on the console and the function returns an empty list instead of
propagating the error. -/
def parse_mongo_log (path : String) (f : FileRead) : List ScanRecord × List String :=
  match f with
  | .ok lines => (parseLinesAux 1 lines, analyzeBanner path)
  | .notFound => ([], analyzeBanner path ++ ["✗ Error: File not found - " ++ path])
  | .ioErr m => ([], analyzeBanner path ++ ["✗ Error reading file: " ++ m])

/-- The truthy collection values of the records, in order: the loop at
source lines 127-129 counts `query['collection']` only when it is truthy,
i.e. not `None` and not the empty string. -/
def collValues (qs : List ScanRecord) : List String :=
  qs.filterMap fun q =>
    match q.collection with
    | some c => if c = "" then none else some c
    | none => none

/-- One `by_collection[c] += 1` step on an insertion-ordered association
list: a `defaultdict(int)` keeps keys in first-insertion order. -/
def bump : List (String × Nat) → String → List (String × Nat)
  | [], c => [(c, 1)]
  | (k, n) :: t, c => if k = c then (k, n + 1) :: t else (k, n) :: bump t c

/-- The `by_collection` counter of `print_summary` (source lines 123-129),
as an association list in key-first-insertion order. -/
def byCollection (qs : List ScanRecord) : List (String × Nat) :=
  (collValues qs).foldl bump []

/-- The `total_duration` accumulator (source lines 124, 131-132): a
duration is added only when truthy (not `None` and not `0`). -/
def totalDuration (qs : List ScanRecord) : Nat :=
  qs.foldl
    (fun t q =>
      match q.duration_ms with
      | some d => if d = 0 then t else t + d
      | none => t)
    0

/-- The `slow_queries` list (source lines 125, 131-134): records whose
duration is truthy and exceeds 100. -/
def slowQueries (qs : List ScanRecord) : List ScanRecord :=
  qs.filter fun q =>
    match q.duration_ms with
    | some d => if d = 0 then false else decide (100 < d)
    | none => false

/-- The comparison used by `sorted(..., key=lambda x: x[1], reverse=True)`:
entry `a` may come before entry `b` when `a`'s count is at least `b`'s.
Python's sort is stable, and `reverse=True` keeps equal-key elements in
their original order, which is what inserting before equals achieves. -/
def collGE (a b : String × Nat) : Prop := b.2 ≤ a.2

instance : DecidableRel collGE := fun a b => Nat.decLe b.2 a.2

instance : IsTotal (String × Nat) collGE := ⟨fun a b => Nat.le_total b.2 a.2⟩

instance : IsTrans (String × Nat) collGE := ⟨fun _ _ _ h1 h2 => Nat.le_trans h2 h1⟩

/-- The descending stable sort of source line 139. -/
def sortDesc (l : List (String × Nat)) : List (String × Nat) :=
  List.insertionSort collGE l

/-- Sum of the per-collection counts. -/
def sumCounts (l : List (String × Nat)) : Nat :=
  (l.map Prod.snd).sum

/-- Helper for `firstSeen`, carrying the keys already emitted. -/
def firstSeenAux (seen : List String) : List String → List String
  | [] => []
  | c :: cs =>
    if c ∈ seen then firstSeenAux seen cs
    else c :: firstSeenAux (c :: seen) cs

/-- The distinct values of a list, in order of first occurrence: the key
order of a Python dict filled left to right. -/
def firstSeen (cs : List String) : List String :=
  firstSeenAux [] cs

/-- Round `a / b` to the nearest integer, ties to even: the rounding used
when formatting `a / b` with two decimal places. -/
def roundHalfEven (a b : Nat) : Nat :=
  let q := a / b
  let r := a % b
  if b < 2 * r then q + 1
  else if 2 * r < b then q
  else if q % 2 = 0 then q else q + 1

/-- Left-pad the fractional part to two digits. -/
def pad2 (fp : Nat) : String :=
  if fp < 10 then "0" ++ toString fp else toString fp

/-- Model of Python's `f"{num/den:.2f}"` for non-negative operands: the
quotient scaled by 100, rounded half-to-even, split into integer and
two-digit fractional parts.  (CPython formats the IEEE double nearest to
`num/den`; for these operands that renders the same digits except in
boundary cases where the double is not exactly a half-cent, which do not
affect the two-decimal-place shape asserted here.) -/
def formatFixed2 (num den : Nat) : String :=
  let s := roundHalfEven (num * 100) den
  toString (s / 100) ++ "." ++ pad2 (s % 100)

/-- The `Total COLLSCAN queries found` line (source line 120). -/
def totalLine (qs : List ScanRecord) : String :=
  "\nTotal COLLSCAN queries found: " ++ toString qs.length

/-- The `Average duration` line (source line 145): total truthy duration
divided by the total record count. -/
def avgLine (qs : List ScanRecord) : String :=
  "Average duration: " ++ formatFixed2 (totalDuration qs) qs.length ++ "ms"

/-- The per-collection section (source lines 137-140): printed only when
`by_collection` is non-empty, one line per collection in descending count
order. -/
def summaryCollSection (qs : List ScanRecord) : List String :=
  if (byCollection qs).isEmpty then []
  else
    "\nCOLLSCAN queries by collection:"
      :: (sortDesc (byCollection qs)).map fun p => "  " ++ p.1 ++ ": " ++ toString p.2

/-- The slow-query section (source lines 143-145): printed only when
`slow_queries` is non-empty. -/
def summarySlowSection (qs : List ScanRecord) : List String :=
  if (slowQueries qs).isEmpty then []
  else
    ["\nSlow COLLSCAN queries (>100ms): " ++ toString (slowQueries qs).length,
     avgLine qs]

/-- Embedding of `print_summary` (source lines 109-145) as the list of
lines it prints. -/
def print_summary (qs : List ScanRecord) : List String :=
  if qs.isEmpty then ["\n✓ No COLLSCAN queries found!"]
  else
    ["\n" ++ sep70, "SUMMARY", sep70, totalLine qs]
      ++ summaryCollSection qs ++ summarySlowSection qs

/-- Python's `str(None)`: what an f-string interpolates for a missing
field. -/
def pyNone : String := "None"

/-- F-string interpolation of an optional string field. -/
def showOptStr : Option String → String
  | some s => s
  | none => pyNone

/-- F-string interpolation of an optional integer field. -/
def showOptNat : Option Nat → String
  | some n => toString n
  | none => pyNone

/-- The eight `f.write` strings produced for one record by the export loop
body (source lines 200-207). -/
def recordBlock (i : Nat) (q : ScanRecord) : List String :=
  ["Query #" ++ toString i ++ " (Line " ++ toString q.line_number ++ ")\n",
   "  Timestamp:     " ++ showOptStr q.timestamp ++ "\n",
   "  Collection:    " ++ showOptStr q.collection ++ "\n",
   "  Duration:      " ++ showOptNat q.duration_ms ++ "ms\n",
   "  Docs Examined: " ++ showOptNat q.docs_examined ++ "\n",
   "  Query:         " ++ showOptStr q.query ++ "\n",
   "  Raw Line:      " ++ q.raw_line ++ "\n",
   "\n" ++ sepDash70 ++ "\n\n"]

/-- The export loop `for i, query in enumerate(collscan_queries, 1)`
(source line 199), carrying the 1-based counter. -/
def exportBody : Nat → List ScanRecord → List String
  | _, [] => []
  | i, q :: qs => recordBlock i q ++ exportBody (i + 1) qs

/-- The two header writes of the export file (source lines 196-197). -/
def exportHeader : List String :=
  ["MongoDB COLLSCAN Queries Report\n", sep70 ++ "\n\n"]

/-- The full sequence of `f.write` strings of a successful export; the file
content is their concatenation. -/
def exportWrites (qs : List ScanRecord) : List String :=
  exportHeader ++ exportBody 1 qs

/-- Outcome of opening and writing the output file; `failure` covers the
`except Exception` arm (source lines 211-212), e.g. a missing output
directory. -/
inductive WriteOutcome where
  | ok
  | failure (msg : String)
deriving DecidableEq

/-- Embedding of `export_to_file` (source lines 190-212): on success the
file receives `exportWrites` and a success line is printed; on failure
nothing is written, the error is reported on the console, and the function
returns normally instead of propagating the exception. -/
def export_to_file (qs : List ScanRecord) (w : WriteOutcome) (outputFile : String) :
    Option (List String) × List String :=
  match w with
  | .ok => (some (exportWrites qs), ["\n✓ Results exported to: " ++ outputFile])
  | .failure m => (none, ["✗ Error exporting to file: " ++ m])

/-- The tail of `main` from the export call onward (source lines 238-242):
whatever the export outcome, the completion banner is printed next. -/
def mainExportStep (qs : List ScanRecord) (w : WriteOutcome) (outputFile : String) :
    List String :=
  (export_to_file qs w outputFile).2 ++ ["\n" ++ sep70, "Analysis Complete!", sep70]

/-- The literal log line of the spec's round-trip property. -/
def c1Line : String :=
  "2024-12-10T10:30:45.123+0000 COLLSCAN ns: mydb.orders query: \x7bstatus:\"pending\"\x7d 150ms docsExamined: 5000 keysExamined: 0 planSummary: COLLSCAN"

/-- A marker line with namespace, duration, docs, keys and plan fields but
no `query:` field, as in the spec's independence property. -/
def c5Line : String :=
  "COLLSCAN ns: test.users 123ms docsExamined: 50 keysExamined: 5 planSummary: COLLSCAN"

theorem parse_collscan_line_line_number (l : String) (n : Nat) :
    (parse_collscan_line l n).line_number = n := rfl

theorem c1_eval : parse_collscan_line c1Line 1 =
    { line_number := 1
    , timestamp := some "2024-12-10T10:30:45.123+0000"
    , collection := some "mydb.orders"
    , query := some "\x7bstatus:\"pending\"\x7d"
    , duration_ms := some 150
    , docs_examined := some 5000
    , keys_examined := some 0
    , plan_summary := some "COLLSCAN"
    , raw_line := c1Line } := by decide

theorem c5_eval : parse_collscan_line c5Line 1 =
    { line_number := 1
    , timestamp := none
    , collection := some "test.users"
    , query := none
    , duration_ms := some 123
    , docs_examined := some 50
    , keys_examined := some 5
    , plan_summary := some "COLLSCAN"
    , raw_line := c5Line } := by decide

theorem parseLinesAux_length (n : Nat) (lines : List String) :
    (parseLinesAux n lines).length = (lines.filter containsMarker).length := by
  induction lines generalizing n with
  | nil => rfl
  | cons l ls ih =>
    simp only [parseLinesAux, List.filter_cons]
    cases h : containsMarker l <;> simp [h, ih]

theorem parseLinesAux_map_line_number (n : Nat) (lines : List String) :
    (parseLinesAux n lines).map (fun r => r.line_number)
      = ((List.enumFrom n lines).filter (fun p => containsMarker p.2)).map Prod.fst := by
  induction lines generalizing n with
  | nil => rfl
  | cons l ls ih =>
    simp only [parseLinesAux, List.enumFrom, List.filter_cons]
    cases h : containsMarker l
    · simp [h, ih]
    · simp [h, ih, parse_collscan_line_line_number]

theorem fst_le_of_mem_enumFrom {α : Type _} :
    ∀ (n : Nat) (l : List α) (p : Nat × α), p ∈ List.enumFrom n l → n ≤ p.1 := by
  intro n l
  induction l generalizing n with
  | nil => intro p h; exact absurd h (List.not_mem_nil p)
  | cons x xs ih =>
    intro p h
    rcases List.mem_cons.mp h with h1 | h2
    · subst h1; exact Nat.le_refl n
    · exact Nat.le_trans (Nat.le_succ n) (ih (n + 1) p h2)

theorem pairwise_fst_lt_enumFrom {α : Type _} (n : Nat) (l : List α) :
    (List.enumFrom n l).Pairwise (fun a b => a.1 < b.1) := by
  induction l generalizing n with
  | nil => exact List.Pairwise.nil
  | cons x xs ih =>
    refine List.Pairwise.cons ?_ (ih (n + 1))
    intro p hp
    exact Nat.lt_of_lt_of_le (Nat.lt_succ_self n) (fst_le_of_mem_enumFrom (n + 1) xs p hp)

theorem le_line_number_of_mem_parseLinesAux :
    ∀ (n : Nat) (lines : List String) (r : ScanRecord),
      r ∈ parseLinesAux n lines → n ≤ r.line_number := by
  intro n lines
  induction lines generalizing n with
  | nil => intro r h; simp [parseLinesAux] at h
  | cons l ls ih =>
    intro r h
    simp only [parseLinesAux] at h
    cases hm : containsMarker l
    · rw [hm] at h
      simp only [Bool.false_eq_true, if_false] at h
      exact Nat.le_trans (Nat.le_succ n) (ih (n + 1) r h)
    · rw [hm] at h
      simp only [if_true] at h
      rcases List.mem_cons.mp h with h1 | h2
      · rw [h1, parse_collscan_line_line_number]
      · exact Nat.le_trans (Nat.le_succ n) (ih (n + 1) r h2)

/-- C1: for the single input line
`2024-12-10T10:30:45.123+0000 COLLSCAN ns: mydb.orders query: ... 150ms
docsExamined: 5000 keysExamined: 0 planSummary: COLLSCAN`, the field
extractor produces a record with timestamp `2024-12-10T10:30:45.123+0000`,
namespace `mydb.orders`, duration 150, docs examined 5000, keys examined 0
and plan summary `COLLSCAN`. -/
theorem c1_roundtrip_extraction :
    (parse_collscan_line c1Line 1).timestamp = some "2024-12-10T10:30:45.123+0000"
    ∧ (parse_collscan_line c1Line 1).collection = some "mydb.orders"
    ∧ (parse_collscan_line c1Line 1).duration_ms = some 150
    ∧ (parse_collscan_line c1Line 1).docs_examined = some 5000
    ∧ (parse_collscan_line c1Line 1).keys_examined = some 0
    ∧ (parse_collscan_line c1Line 1).plan_summary = some "COLLSCAN" := by
  rw [c1_eval]
  exact ⟨rfl, rfl, rfl, rfl, rfl, rfl⟩

/-- C5: every line containing the marker token yields exactly one record
(the record count equals the count of marker lines, whatever the
sub-patterns do), and on a concrete line carrying `ns: test.users`,
`123ms`, `docsExamined: 50`, `keysExamined: 5`, `planSummary: COLLSCAN`
and no `query:` field, exactly those fields are populated while the query
expression and timestamp stay empty. -/
theorem c5_independent_extraction :
    (∀ lines : List String,
        (parseLinesAux 1 lines).length = (lines.filter containsMarker).length)
    ∧ (parse_collscan_line c5Line 1).collection = some "test.users"
    ∧ (parse_collscan_line c5Line 1).duration_ms = some 123
    ∧ (parse_collscan_line c5Line 1).docs_examined = some 50
    ∧ (parse_collscan_line c5Line 1).keys_examined = some 5
    ∧ (parse_collscan_line c5Line 1).plan_summary = some "COLLSCAN"
    ∧ (parse_collscan_line c5Line 1).query = none
    ∧ (parse_collscan_line c5Line 1).timestamp = none := by
  rw [c5_eval]
  exact ⟨parseLinesAux_length 1, rfl, rfl, rfl, rfl, rfl, rfl, rfl⟩

/-- C4: whenever the file read fails (file not found, or any other
read error), the scanner reports the error on the console and returns an
empty record list to its caller instead of propagating the exception. -/
theorem c4_scanner_error_handling (path : String) (f : FileRead)
    (h : f.isError = true) :
    (parse_mongo_log path f).1 = []
    ∧ ∃ msg, (parse_mongo_log path f).2 = analyzeBanner path ++ [msg] := by
  cases f with
  | ok lines => simp [FileRead.isError] at h
  | notFound => exact ⟨rfl, ⟨_, rfl⟩⟩
  | ioErr m => exact ⟨rfl, ⟨_, rfl⟩⟩

/-- Witness for C4 at a concrete path and the file-not-found outcome. -/
theorem c4_scanner_error_handling_witness :
    (parse_mongo_log "mongo.log" FileRead.notFound).1 = []
    ∧ ∃ msg, (parse_mongo_log "mongo.log" FileRead.notFound).2
        = analyzeBanner "mongo.log" ++ [msg] :=
  c4_scanner_error_handling "mongo.log" FileRead.notFound rfl

/-- C7: a failure while writing the export file is caught inside the
export step: nothing is written, the error is reported on the console,
and execution continues to the completion banner. -/
theorem c7_export_error_handling (qs : List ScanRecord) (out m : String) :
    (export_to_file qs (WriteOutcome.failure m) out).1 = none
    ∧ (export_to_file qs (WriteOutcome.failure m) out).2
        = ["✗ Error exporting to file: " ++ m]
    ∧ mainExportStep qs (WriteOutcome.failure m) out
        = ["✗ Error exporting to file: " ++ m, "\n" ++ sep70,
           "Analysis Complete!", sep70] :=
  ⟨rfl, rfl, rfl⟩

/-- C8: line numbers of the produced records are exactly the 1-based
physical positions of the marker lines, hence 1-based and strictly
increasing regardless of how many non-marker lines are skipped. -/
theorem c8_line_numbers (lines : List String) :
    (parseLinesAux 1 lines).map (fun r => r.line_number)
        = ((List.enumFrom 1 lines).filter (fun p => containsMarker p.2)).map Prod.fst
    ∧ ((parseLinesAux 1 lines).map (fun r => r.line_number)).Pairwise (· < ·)
    ∧ ∀ r ∈ parseLinesAux 1 lines, 1 ≤ r.line_number := by
  refine ⟨parseLinesAux_map_line_number 1 lines, ?_, ?_⟩
  · rw [parseLinesAux_map_line_number 1 lines]
    exact List.pairwise_map.mpr ((pairwise_fst_lt_enumFrom 1 lines).filter _)
  · intro r hr
    exact le_line_number_of_mem_parseLinesAux 1 lines r hr

/-- Sum of the durations the extractor found, counting a missing duration
as 0: the numerator the spec describes. -/
def specDurationSum (qs : List ScanRecord) : Nat :=
  (qs.map fun q => q.duration_ms.getD 0).sum

/-- The string has the shape `<integer part>.<exactly two digits>`. -/
def hasTwoDecimals (s : String) : Prop :=
  ∃ a b : String, s = a ++ "." ++ b ∧ b.length = 2

theorem totalDuration_foldl (t : Nat) (qs : List ScanRecord) :
    qs.foldl
        (fun t q =>
          match q.duration_ms with
          | some d => if d = 0 then t else t + d
          | none => t)
        t
      = t + (qs.map fun q => q.duration_ms.getD 0).sum := by
  induction qs generalizing t with
  | nil => simp
  | cons q qs ih =>
    simp only [List.foldl_cons, List.map_cons, List.sum_cons]
    cases hd : q.duration_ms with
    | none => simp [hd, ih]
    | some d =>
      by_cases h0 : d = 0
      · subst h0; simp [hd, ih]
      · simp [hd, h0, ih, Nat.add_assoc]

theorem totalDuration_eq_specSum (qs : List ScanRecord) :
    totalDuration qs = specDurationSum qs := by
  unfold totalDuration specDurationSum
  simpa using totalDuration_foldl 0 qs

theorem pad2_length : ∀ fp, fp < 100 → (pad2 fp).length = 2 := by decide

theorem formatFixed2_hasTwoDecimals (num den : Nat) :
    hasTwoDecimals (formatFixed2 num den) :=
  ⟨toString (roundHalfEven (num * 100) den / 100),
   pad2 (roundHalfEven (num * 100) den % 100), rfl,
   pad2_length _ (Nat.mod_lt _ (by norm_num))⟩

/-- C2: for every non-empty record sequence, the reported average-duration
line divides the sum of the extracted durations by the total record count
(not by the number of records with a duration), rendered with two decimal
places. -/
theorem c2_average_denominator (qs : List ScanRecord) (h : qs ≠ []) :
    avgLine qs
        = "Average duration: "
            ++ formatFixed2 (specDurationSum qs) qs.length ++ "ms"
    ∧ hasTwoDecimals (formatFixed2 (specDurationSum qs) qs.length) := by
  constructor
  · unfold avgLine
    rw [totalDuration_eq_specSum]
  · exact formatFixed2_hasTwoDecimals _ _

/-- A record with no extracted fields, as produced for a marker line whose
sub-patterns all fail. -/
def rEmpty : ScanRecord :=
  ⟨1, none, none, none, none, none, none, none, "COLLSCAN"⟩

/-- A record with a namespace and a slow duration. -/
def rSlow : ScanRecord :=
  ⟨2, none, some "db.orders", none, some 150, none, none, none, "x"⟩

/-- Witness for C2 on a two-record list, one record with duration 150 and
one with no duration. -/
theorem c2_average_denominator_witness :
    avgLine [rSlow, rEmpty]
        = "Average duration: "
            ++ formatFixed2 (specDurationSum [rSlow, rEmpty]) [rSlow, rEmpty].length ++ "ms"
    ∧ hasTwoDecimals (formatFixed2 (specDurationSum [rSlow, rEmpty]) [rSlow, rEmpty].length) :=
  c2_average_denominator [rSlow, rEmpty] (by simp)

theorem filter_orderedInsert (c : Nat) (x : String × Nat) (l : List (String × Nat)) :
    (List.orderedInsert collGE x l).filter (fun p => p.2 == c)
      = if x.2 = c then x :: l.filter (fun p => p.2 == c)
        else l.filter (fun p => p.2 == c) := by
  induction l with
  | nil => by_cases h : x.2 = c <;> simp [List.orderedInsert, h]
  | cons b l ih =>
    simp only [List.orderedInsert]
    by_cases hr : collGE x b
    · rw [if_pos hr]
      by_cases h : x.2 = c <;> simp [List.filter_cons, h]
    · rw [if_neg hr]
      by_cases hx : x.2 = c
      · have hb : ¬(b.2 = c) := fun hbc => hr (le_of_eq (hx ▸ hbc))
        simp [List.filter_cons, hb, ih, hx]
      · by_cases hb : b.2 = c <;> simp [List.filter_cons, hb, ih, hx]

theorem sortDesc_stable (c : Nat) (l : List (String × Nat)) :
    (sortDesc l).filter (fun p => p.2 == c) = l.filter (fun p => p.2 == c) := by
  induction l with
  | nil => rfl
  | cons x l ih =>
    show (List.orderedInsert collGE x (List.insertionSort collGE l)).filter _ = _
    rw [filter_orderedInsert]
    simp only [sortDesc] at ih
    by_cases h : x.2 = c <;> simp [h, ih, List.filter_cons]

theorem map_fst_bump (acc : List (String × Nat)) (c : String) :
    (bump acc c).map Prod.fst
      = if c ∈ acc.map Prod.fst then acc.map Prod.fst
        else acc.map Prod.fst ++ [c] := by
  induction acc with
  | nil => simp [bump]
  | cons kn t ih =>
    obtain ⟨k, n⟩ := kn
    by_cases h : k = c
    · subst h; simp [bump]
    · have h2 : ¬(c = k) := fun e => h e.symm
      simp only [bump, if_neg h, List.map_cons, List.mem_cons, h2, false_or]
      rw [ih]
      by_cases hc : c ∈ t.map Prod.fst <;> simp [hc]

theorem firstSeenAux_congr (cs : List String) :
    ∀ s₁ s₂, (∀ x, x ∈ s₁ ↔ x ∈ s₂) → firstSeenAux s₁ cs = firstSeenAux s₂ cs := by
  induction cs with
  | nil => intro _ _ _; rfl
  | cons c cs ih =>
    intro s₁ s₂ h
    simp only [firstSeenAux]
    by_cases hc : c ∈ s₁
    · rw [if_pos hc, if_pos ((h c).mp hc)]
      exact ih _ _ h
    · rw [if_neg hc, if_neg (fun hx => hc ((h c).mpr hx))]
      exact congrArg (c :: ·) (ih _ _ (fun x => by simp [List.mem_cons, h x]))

theorem foldl_bump_map_fst :
    ∀ (cs : List String) (acc : List (String × Nat)),
      (cs.foldl bump acc).map Prod.fst
        = acc.map Prod.fst ++ firstSeenAux (acc.map Prod.fst) cs := by
  intro cs
  induction cs with
  | nil => intro acc; simp [firstSeenAux]
  | cons c cs ih =>
    intro acc
    simp only [List.foldl_cons, firstSeenAux]
    by_cases hc : c ∈ acc.map Prod.fst
    · rw [if_pos hc, ih, map_fst_bump, if_pos hc]
    · rw [if_neg hc, ih, map_fst_bump, if_neg hc,
        firstSeenAux_congr cs (acc.map Prod.fst ++ [c]) (c :: acc.map Prod.fst)
          (fun x => by simp [List.mem_append, List.mem_cons, or_comm])]
      simp

theorem byCollection_map_fst (qs : List ScanRecord) :
    (byCollection qs).map Prod.fst = firstSeen (collValues qs) := by
  unfold byCollection firstSeen
  simpa using foldl_bump_map_fst (collValues qs) []

theorem sumCounts_bump (acc : List (String × Nat)) (c : String) :
    sumCounts (bump acc c) = sumCounts acc + 1 := by
  induction acc with
  | nil => rfl
  | cons kn t ih =>
    obtain ⟨k, n⟩ := kn
    by_cases h : k = c
    · subst h; simp [bump, sumCounts]; omega
    · simp [bump, h, sumCounts] at ih ⊢; omega

theorem foldl_bump_sumCounts :
    ∀ (cs : List String) (acc : List (String × Nat)),
      sumCounts (cs.foldl bump acc) = sumCounts acc + cs.length := by
  intro cs
  induction cs with
  | nil => intro acc; simp
  | cons c cs ih =>
    intro acc
    simp only [List.foldl_cons, List.length_cons]
    rw [ih, sumCounts_bump]
    omega

theorem sumCounts_byCollection (qs : List ScanRecord) :
    sumCounts (byCollection qs) = (collValues qs).length := by
  unfold byCollection
  simpa [sumCounts] using foldl_bump_sumCounts (collValues qs) []

/-- C3: the per-namespace grouping lists namespaces in descending count
order; equal counts keep their relative order (stability: the subsequence
at each count value is unchanged), and the grouping keys appear in the
order their namespace was first encountered in the record sequence. -/
theorem c3_grouping_order (qs : List ScanRecord) :
    List.Sorted collGE (sortDesc (byCollection qs))
    ∧ (∀ c : Nat,
        (sortDesc (byCollection qs)).filter (fun p => p.2 == c)
          = (byCollection qs).filter (fun p => p.2 == c))
    ∧ (byCollection qs).map Prod.fst = firstSeen (collValues qs) :=
  ⟨List.sorted_insertionSort collGE (byCollection qs),
   fun c => sortDesc_stable c (byCollection qs),
   byCollection_map_fst qs⟩

theorem totalLine_mem_print_summary (qs : List ScanRecord) (h : qs ≠ []) :
    totalLine qs ∈ print_summary qs := by
  unfold print_summary
  rw [if_neg (by simpa [List.isEmpty_iff] using h)]
  apply List.mem_append_left
  apply List.mem_append_left
  simp

theorem collValues_eq_nil_iff (qs : List ScanRecord) :
    collValues qs = [] ↔ ∀ q ∈ qs, ∀ c, q.collection = some c → c = "" := by
  unfold collValues
  rw [List.filterMap_eq_nil_iff]
  constructor
  · intro h q hq c hc
    have hv := h q hq
    rw [hc] at hv
    by_contra hne
    simp [hne] at hv
  · intro h q hq
    cases hc : q.collection with
    | none => simp [hc]
    | some c => simp [hc, h q hq c hc]

theorem byCollection_eq_nil_iff (qs : List ScanRecord) :
    byCollection qs = [] ↔ collValues qs = [] := by
  constructor
  · intro h
    have hs := sumCounts_byCollection qs
    rw [h] at hs
    exact List.eq_nil_of_length_eq_zero (by simpa [sumCounts] using hs.symm)
  · intro h
    simp [byCollection, h]

theorem summaryCollSection_eq_nil_iff (qs : List ScanRecord) :
    summaryCollSection qs = [] ↔ byCollection qs = [] := by
  unfold summaryCollSection
  by_cases h : (byCollection qs).isEmpty
  · simp [h, List.isEmpty_iff.mp h]
  · rw [if_neg h]
    simp only [List.isEmpty_iff] at h
    simp [h]

theorem slowQueries_eq_nil_iff (qs : List ScanRecord) :
    slowQueries qs = [] ↔ ∀ q ∈ qs, ∀ d, q.duration_ms = some d → ¬100 < d := by
  unfold slowQueries
  rw [List.filter_eq_nil_iff]
  constructor
  · intro h q hq d hd hlt
    have hv := h q hq
    rw [hd] at hv
    have hd0 : ¬d = 0 := by omega
    simp [hd0, hlt] at hv
  · intro h q hq
    cases hd : q.duration_ms with
    | none => simp [hd]
    | some d =>
      by_cases h0 : d = 0
      · simp [hd, h0]
      · simp [hd, h0, h q hq d hd]

theorem summarySlowSection_eq_nil_iff (qs : List ScanRecord) :
    summarySlowSection qs = [] ↔ slowQueries qs = [] := by
  unfold summarySlowSection
  by_cases h : (slowQueries qs).isEmpty
  · simp [h, List.isEmpty_iff.mp h]
  · rw [if_neg h]
    simp only [List.isEmpty_iff] at h
    simp [h]

/-- C9 counterexample: for the single record with no extracted fields, the
summary output is exactly the banner and total lines — it contains neither
the per-collection table nor the slow-query count nor the average duration,
refuting the claim that all three appear whenever at least one record was
produced. -/
theorem c9_counterexample :
    print_summary [rEmpty]
        = ["\n" ++ sep70, "SUMMARY", sep70, "\nTotal COLLSCAN queries found: 1"]
    ∧ summaryCollSection [rEmpty] = []
    ∧ summarySlowSection [rEmpty] = [] := by
  refine ⟨?_, ?_, ?_⟩ <;> decide

/-- C9 (amended): whenever at least one record was produced, the summary
contains the total-count line; the per-collection table appears exactly
when some record has a (truthy) namespace, and the slow-query count and
average-duration lines appear exactly when some record has an extracted
duration exceeding 100 ms. -/
theorem c9_summary_sections (qs : List ScanRecord) (h : qs ≠ []) :
    totalLine qs ∈ print_summary qs
    ∧ (summaryCollSection qs ≠ []
        ↔ ∃ q ∈ qs, ∃ c, q.collection = some c ∧ c ≠ "")
    ∧ (summarySlowSection qs ≠ []
        ↔ ∃ q ∈ qs, ∃ d, q.duration_ms = some d ∧ 100 < d) := by
  refine ⟨totalLine_mem_print_summary qs h, ?_, ?_⟩
  · rw [Ne, summaryCollSection_eq_nil_iff, byCollection_eq_nil_iff,
      collValues_eq_nil_iff]
    push_neg
    rfl
  · rw [Ne, summarySlowSection_eq_nil_iff, slowQueries_eq_nil_iff]
    push_neg
    rfl

/-- Witness for C9 (amended) on a single record with a namespace and a
duration of 150 ms. -/
theorem c9_summary_sections_witness :
    totalLine [rSlow] ∈ print_summary [rSlow]
    ∧ (summaryCollSection [rSlow] ≠ []
        ↔ ∃ q ∈ [rSlow], ∃ c, q.collection = some c ∧ c ≠ "")
    ∧ (summarySlowSection [rSlow] ≠ []
        ↔ ∃ q ∈ [rSlow], ∃ d, q.duration_ms = some d ∧ 100 < d) :=
  c9_summary_sections [rSlow] (by simp)

theorem collValues_length (qs : List ScanRecord)
    (h : ∀ q ∈ qs, q.collection ≠ some "") :
    (collValues qs).length = (qs.filter fun q => q.collection.isSome).length := by
  induction qs with
  | nil => rfl
  | cons q qs ih =>
    have hq : q.collection ≠ some "" := h q (List.mem_cons_self q qs)
    have ih2 := ih fun q' hq' => h q' (List.mem_cons_of_mem q hq')
    simp only [collValues, List.filterMap_cons, List.filter_cons] at ih2 ⊢
    cases hc : q.collection with
    | none => simp [hc, ih2]
    | some c =>
      have hne : ¬(c = "") := fun e => hq (by rw [hc, e])
      simp [hc, hne, ih2]

/-- C10: a record without a namespace is counted in the reported total but
belongs to no per-collection group: the group counts sum to the number of
records with a namespace, the table is omitted entirely when no record has
one, and the total line always reports the full record count. -/
theorem c10_uncollected_records (qs : List ScanRecord) (h1 : qs ≠ [])
    (h2 : ∀ q ∈ qs, q.collection ≠ some "") :
    sumCounts (byCollection qs)
        = (qs.filter fun q => q.collection.isSome).length
    ∧ ((∀ q ∈ qs, q.collection = none) → summaryCollSection qs = [])
    ∧ totalLine qs ∈ print_summary qs := by
  refine ⟨?_, ?_, totalLine_mem_print_summary qs h1⟩
  · rw [sumCounts_byCollection]
    exact collValues_length qs h2
  · intro hall
    rw [summaryCollSection_eq_nil_iff, byCollection_eq_nil_iff,
      collValues_eq_nil_iff]
    intro q hq c hc
    rw [hall q hq] at hc
    cases hc

/-- Witness for C10 on a two-record list: one record with a namespace, one
without. -/
theorem c10_uncollected_records_witness :
    sumCounts (byCollection [rSlow, rEmpty])
        = ([rSlow, rEmpty].filter fun q => q.collection.isSome).length
    ∧ ((∀ q ∈ [rSlow, rEmpty], q.collection = none)
        → summaryCollSection [rSlow, rEmpty] = [])
    ∧ totalLine [rSlow, rEmpty] ∈ print_summary [rSlow, rEmpty] :=
  c10_uncollected_records [rSlow, rEmpty] (by simp) (by decide)

theorem exportBody_eq_enumFrom (i : Nat) (qs : List ScanRecord) :
    exportBody i qs = (List.enumFrom i qs).flatMap fun p => recordBlock p.1 p.2 := by
  induction qs generalizing i with
  | nil => rfl
  | cons q qs ih => simp [exportBody, List.enumFrom, ih]

theorem exportBody_length (i : Nat) (qs : List ScanRecord) :
    (exportBody i qs).length = 8 * qs.length := by
  induction qs generalizing i with
  | nil => rfl
  | cons q qs ih =>
    simp [exportBody, recordBlock, ih, List.length_append]
    omega

/-- C6 (amended): the export writes one block per record for all records
(two header writes plus eight writes per record, blocks numbered from 1 in
record order), in the fixed text layout in which a missing optional field
is rendered as the text `None` (Python's `str(None)`), not as empty. -/
theorem c6_export_blocks (qs : List ScanRecord) :
    exportWrites qs
        = exportHeader ++ ((List.enumFrom 1 qs).flatMap fun p => recordBlock p.1 p.2)
    ∧ (exportWrites qs).length = 2 + 8 * qs.length := by
  constructor
  · unfold exportWrites
    rw [exportBody_eq_enumFrom]
  · unfold exportWrites
    rw [List.length_append, exportBody_length]
    rfl

/-- C6 counterexample: for a record whose timestamp pattern did not match,
the timestamp line of its export block reads `Timestamp:     None`, not the
empty rendering the claim asserts. -/
theorem c6_counterexample :
    (exportWrites [rEmpty])[3]? = some "  Timestamp:     None\n"
    ∧ "  Timestamp:     None\n" ≠ "  Timestamp:     \n" :=
  ⟨by decide, by decide⟩

end ScanLogs
